import Mathlib

/-!
Shallow embedding of `runtime/lib/backend/lightning/lightning_kokkos/LightningKokkosSimulator.cpp`
(the `Catalyst::Runtime::Simulator::LightningKokkosSimulator` class).

Complex amplitudes are represented as pairs of rationals `(re, im)`; the C++
`double` arithmetic that the relevant claims depend on (comparisons, sums of
squared magnitudes, zeroing, index arithmetic, histogram accumulation) is exact
at the inputs used, so rationals are a faithful carrier for it.

External collaborators that are not part of the source file under verification
(the gate-arity table, the dense linear-algebra kernels, the sampler, the
adjoint-Jacobian kernel, the `QubitManager`, `CacheManager` and
`LightningKokkosObsManager` helper classes) are either modelled from the spec
(marked with a doc comment starting `Modelled from the spec:`) or passed in as
explicit function parameters, exactly as the spec's §6 treats them: black boxes
with documented contracts.
-/

namespace LightningKokkos

/-- A complex amplitude as a pair (real part, imaginary part) of rationals. -/
abbrev Cq : Type := ℚ × ℚ

/-- Squared magnitude of an amplitude: the C++ `real(c * conj(c))`. -/
def normSq (c : Cq) : ℚ := c.1 * c.1 + c.2 * c.2

/-- The zero amplitude. -/
def zeroC : Cq := ((0 : ℚ), (0 : ℚ))

/-- The unit amplitude. -/
def oneC : Cq := ((1 : ℚ), (0 : ℚ))

/-- Modelled from the spec: the Qubit Index Manager (§4.1), whose source
(`QubitManager.hpp`) is not part of the file under verification.  It maps
stable qubit ids to device wires; ids are issued from a monotone counter so
that allocation "returns fresh, never-before-live ids".  The `issued` field is
the history of every id ever issued, kept to state freshness. -/
structure QubitManager where
  nextId : Nat
  live : List (Nat × Nat)
  issued : List Nat
deriving Repr, DecidableEq

def QubitManager.empty : QubitManager := ⟨0, [], []⟩

/-- Modelled from the spec: `AllocateRange(count)` issues `endWire - startWire`
fresh ids mapped to the device wires `startWire, …, endWire - 1`. -/
def QubitManager.AllocateRange (qm : QubitManager) (startWire endWire : Nat) :
    QubitManager × List Nat :=
  let k := endWire - startWire
  let ids := (List.range k).map (fun i => qm.nextId + i)
  ({ nextId := qm.nextId + k,
     live := qm.live ++ ids.zip ((List.range k).map (fun i => startWire + i)),
     issued := qm.issued ++ ids }, ids)

/-- Modelled from the spec: `Allocate()` issues one fresh id for the given wire. -/
def QubitManager.Allocate (qm : QubitManager) (wire : Nat) : QubitManager × Nat :=
  (⟨qm.nextId + 1, qm.live ++ [(qm.nextId, wire)], qm.issued ++ [qm.nextId]⟩, qm.nextId)

/-- Modelled from the spec: `ReleaseAll()` drops every live mapping. -/
def QubitManager.ReleaseAll (qm : QubitManager) : QubitManager :=
  { qm with live := [] }

/-- Modelled from the spec: `Release(id)` drops one live mapping. -/
def QubitManager.Release (qm : QubitManager) (id : Nat) : QubitManager :=
  { qm with live := qm.live.filter (fun p => decide (p.1 ≠ id)) }

/-- Modelled from the spec: the id → device-wire lookup behind `getDeviceWires`. -/
def QubitManager.getDeviceWire (qm : QubitManager) (id : Nat) : Option Nat :=
  (qm.live.find? (fun p => p.1 == id)).map (fun p => p.2)

/-- Well-formedness of the qubit manager: every id ever issued is below the
fresh-id counter.  Holds for the initial manager and is preserved by every
operation. -/
def QubitManager.wf (qm : QubitManager) : Prop :=
  ∀ id ∈ qm.issued, id < qm.nextId

instance (qm : QubitManager) : Decidable qm.wf := by
  unfold QubitManager.wf; infer_instance

/-- The device state vector `StateVectorT`: its qubit count and its amplitude
data (size `2 ^ numQubits`). -/
structure StateVector where
  numQubits : Nat
  data : List Cq
deriving Repr, DecidableEq

/-- `StateVectorT(n)`: a freshly allocated state vector in the all-zero basis
state |0…0⟩ of size `2 ^ n`. -/
def StateVector.init (n : Nat) : StateVector :=
  ⟨n, oneC :: List.replicate (2 ^ n - 1) zeroC⟩

/-- The measurement kind recorded with an observable use (`MeasurementsT`). -/
inductive MeasurementsT where
  | Expval
  | Var
deriving Repr, DecidableEq

/-- One recorded operation on the tape: name, parameters, device wires,
inverse flag. -/
structure TapeOp where
  name : String
  params : List ℚ
  wires : List Nat
  inverse : Bool
deriving Repr, DecidableEq

/-- The Operation Tape (`CacheManager`): ordered recorded operations and
ordered recorded observable uses (key, measurement kind).  The real
`CacheManager` stores keys and callees in two parallel vectors that are only
ever appended together; one list of pairs is the same data. -/
structure CacheManager where
  ops : List TapeOp
  obs : List (Nat × MeasurementsT)
deriving Repr, DecidableEq

def CacheManager.empty : CacheManager := ⟨[], []⟩

/-- `CacheManager::Reset()`: clears all entries. -/
def CacheManager.Reset (_cm : CacheManager) : CacheManager := CacheManager.empty

/-- `CacheManager::addOperation(name, params, wires, inverse)`. -/
def CacheManager.addOperation (cm : CacheManager) (name : String) (params : List ℚ)
    (wires : List Nat) (inverse : Bool) : CacheManager :=
  { cm with ops := cm.ops ++ [⟨name, params, wires, inverse⟩] }

/-- `CacheManager::addObservable(key, kind)`. -/
def CacheManager.addObservable (cm : CacheManager) (key : Nat) (kind : MeasurementsT) :
    CacheManager :=
  { cm with obs := cm.obs ++ [(key, kind)] }

def CacheManager.getNumOperations (cm : CacheManager) : Nat := cm.ops.length

def CacheManager.getNumObservables (cm : CacheManager) : Nat := cm.obs.length

/-- `CacheManager::getNumParams()`: total number of recorded gate parameters. -/
def CacheManager.getNumParams (cm : CacheManager) : Nat :=
  (cm.ops.map (fun op => op.params.length)).sum

def CacheManager.getOperationsNames (cm : CacheManager) : List String :=
  cm.ops.map (fun op => op.name)

def CacheManager.getObservablesKeys (cm : CacheManager) : List Nat :=
  cm.obs.map (fun p => p.1)

def CacheManager.getObservablesCallees (cm : CacheManager) : List MeasurementsT :=
  cm.obs.map (fun p => p.2)

/-- Modelled from the spec: the Observable Registry (§4.3), whose source
(`LightningKokkosObsManager.hpp`) is not part of the file under verification.
Keys are monotonically issued integers `0, …, registered - 1`. -/
structure ObsManager where
  registered : Nat
deriving Repr, DecidableEq

/-- Modelled from the spec: `isValidObservables` — every key was issued. -/
def ObsManager.isValidObservables (om : ObsManager) (keys : List Nat) : Bool :=
  keys.all (fun k => decide (k < om.registered))

/-- The simulator aggregate state: state vector, qubit manager, observable
registry, tape-recording flag, cache manager and device shots. -/
structure Simulator where
  device_sv : StateVector
  qubit_manager : QubitManager
  obs_manager : ObsManager
  tape_recording : Bool
  cache_manager : CacheManager
  device_shots : Nat
deriving Repr, DecidableEq

/-- A freshly constructed simulator: zero qubits, nothing recorded. -/
def Simulator.init : Simulator :=
  ⟨StateVector.init 0, QubitManager.empty, ⟨0⟩, false, CacheManager.empty, 0⟩

/-- `GetNumQubits()`: `device_sv->getNumQubits()`. -/
def Simulator.GetNumQubits (sim : Simulator) : Nat := sim.device_sv.numQubits

/-- `AllocateQubits(num_qubits)` (source lines 26-36): returns `{}` untouched
when the count is zero; otherwise replaces the state vector by a fresh one of
`cur + num_qubits` qubits and allocates the id range. -/
def allocateQubits (sim : Simulator) (num_qubits : Nat) : Simulator × List Nat :=
  if num_qubits = 0 then (sim, [])
  else
    let cur_num_qubits := sim.device_sv.numQubits
    let new_num_qubits := cur_num_qubits + num_qubits
    let qmIds := sim.qubit_manager.AllocateRange cur_num_qubits new_num_qubits
    ({ sim with device_sv := StateVector.init new_num_qubits, qubit_manager := qmIds.1 },
     qmIds.2)

/-- `ReleaseAllQubits()` (source lines 40-44): releases every id and resets
the device state vector to zero qubits. -/
def releaseAllQubits (sim : Simulator) : Simulator :=
  { sim with qubit_manager := sim.qubit_manager.ReleaseAll,
             device_sv := StateVector.init 0 }

/-- `StartTapeRecording()` (source lines 51-56). -/
def startTapeRecording (sim : Simulator) : Except String Simulator :=
  if sim.tape_recording then .error "Cannot re-activate the cache manager"
  else .ok { sim with tape_recording := true,
                      cache_manager := sim.cache_manager.Reset }

/-- `StopTapeRecording()` (source lines 58-62). -/
def stopTapeRecording (sim : Simulator) : Except String Simulator :=
  if !sim.tape_recording then .error "Cannot stop an already stopped cache manager"
  else .ok { sim with tape_recording := false }

/-- Modelled from the spec: the known gate table `Lightning::simulator_gate_info`
(§6 "Gate table lookup: given an operation name, returns
(wireArity, paramArity)"); the table itself lives outside the file under
verification.  A representative set of Lightning gates with their wire and
parameter arities. -/
def simulator_gate_info : List (String × Nat × Nat) :=
  [("Identity", 1, 0), ("PauliX", 1, 0), ("PauliY", 1, 0), ("PauliZ", 1, 0),
   ("Hadamard", 1, 0), ("S", 1, 0), ("T", 1, 0), ("PhaseShift", 1, 1),
   ("RX", 1, 1), ("RY", 1, 1), ("RZ", 1, 1), ("Rot", 1, 3),
   ("CNOT", 2, 0), ("CY", 2, 0), ("CZ", 2, 0), ("SWAP", 2, 0),
   ("IsingXX", 2, 1), ("IsingYY", 2, 1), ("IsingZZ", 2, 1),
   ("ControlledPhaseShift", 2, 1), ("CRX", 2, 1), ("CRY", 2, 1), ("CRZ", 2, 1),
   ("CRot", 2, 3), ("CSWAP", 3, 0), ("Toffoli", 3, 0)]

/-- `Lightning::lookup_gates`: looks an operation name up in the gate table,
failing when the name is unknown. -/
def lookup_gates (table : List (String × Nat × Nat)) (name : String) :
    Except String (Nat × Nat) :=
  match table.find? (fun e => e.1 == name) with
  | some e => .ok e.2
  | none => .error "The given operation is not supported by the device"

/-- Modelled from the spec: the id → device-wire translation for a wire list
(`getDeviceWires` of the base class; §4.1 `DeviceWires` fails when an id is
not currently allocated). -/
def deviceWiresList (qm : QubitManager) : List Nat → Option (List Nat)
  | [] => some []
  | w :: ws =>
    match qm.getDeviceWire w, deviceWiresList qm ws with
    | some d, some ds => some (d :: ds)
    | _, _ => none

/-- `getDeviceWires(wires)` on the simulator, as an `Except`. -/
def getDeviceWires (sim : Simulator) (wires : List Nat) : Except String (List Nat) :=
  match deviceWiresList sim.qubit_manager wires with
  | some ds => .ok ds
  | none => .error "Invalid given wires"

/-- `isValidQubits(wires)`: every id is currently allocated. -/
def isValidQubits (sim : Simulator) (wires : List Nat) : Bool :=
  wires.all (fun w => (sim.qubit_manager.getDeviceWire w).isSome)

/-- The external amplitude-apply kernel for named gates
(`device_sv->applyOperation`), passed in as a black box (§6). -/
abbrev GateKernel : Type := String → List Nat → Bool → List ℚ → List Cq → List Cq

/-- The external matrix-apply kernel (`device_sv->applyMultiQubitOp`). -/
abbrev MatrixKernel : Type := List Cq → List Nat → Bool → List Cq → List Cq

/-- `NamedOperation(name, params, wires, inverse)` (source lines 110-132):
gate-table lookup, then the arity checks exactly as written in the source —
`RT_FAIL_IF((!wires.size() && wires.size() != op_num_wires), "Invalid number
of qubits")` and `RT_FAIL_IF(params.size() != op_num_params, "Invalid number
of parameters")` — then wire translation, state update through the external
kernel, and tape bookkeeping when recording. -/
def namedOperation (applyOp : GateKernel) (sim : Simulator) (name : String)
    (params : List ℚ) (wires : List Nat) (inverse : Bool) : Except String Simulator :=
  match lookup_gates simulator_gate_info name with
  | .error e => .error e
  | .ok opArity =>
    if wires.length = 0 ∧ wires.length ≠ opArity.1 then
      .error "Invalid number of qubits"
    else if params.length ≠ opArity.2 then
      .error "Invalid number of parameters"
    else
      match getDeviceWires sim wires with
      | .error e => .error e
      | .ok dev_wires =>
        let sim2 := { sim with device_sv :=
          ⟨sim.device_sv.numQubits, applyOp name dev_wires inverse params sim.device_sv.data⟩ }
        if sim2.tape_recording then
          .ok { sim2 with cache_manager :=
            sim2.cache_manager.addOperation name params dev_wires inverse }
        else .ok sim2

/-- `MatrixOperation(matrix, wires, inverse)` (source lines 134-161): rejects
an empty wire list, translates wires, applies the external matrix kernel, and
while recording appends one tape entry with the fixed name `"MatrixOp"` and an
empty parameter list. -/
def matrixOperation (applyMat : MatrixKernel) (sim : Simulator) (matrix : List Cq)
    (wires : List Nat) (inverse : Bool) : Except String Simulator :=
  if wires.length = 0 then .error "Invalid number of qubits"
  else
    match getDeviceWires sim wires with
    | .error e => .error e
    | .ok dev_wires =>
      let sim2 := { sim with device_sv :=
        ⟨sim.device_sv.numQubits, applyMat matrix dev_wires inverse sim.device_sv.data⟩ }
      if sim2.tape_recording then
        .ok { sim2 with cache_manager :=
          sim2.cache_manager.addOperation "MatrixOp" [] dev_wires inverse }
      else .ok sim2

/-- `Expval(obsKey)` (source lines 189-204): key validation, tape bookkeeping
with kind `Expval`; the numeric value comes from the external measurement
kernel and is passed in as `value`. -/
def expval (sim : Simulator) (obsKey : Nat) (value : ℚ) : Except String (ℚ × Simulator) :=
  if !(sim.obs_manager.isValidObservables [obsKey]) then
    .error "Invalid key for cached observables"
  else
    let sim2 :=
      if sim.tape_recording then
        { sim with cache_manager := sim.cache_manager.addObservable obsKey MeasurementsT.Expval }
      else sim
    .ok (value, sim2)

/-- `Var(obsKey)` (source lines 206-221): key validation, tape bookkeeping
with kind `Var`; the numeric value comes from the external measurement kernel
and is passed in as `value`. -/
def var (sim : Simulator) (obsKey : Nat) (value : ℚ) : Except String (ℚ × Simulator) :=
  if !(sim.obs_manager.isValidObservables [obsKey]) then
    .error "Invalid key for cached observables"
  else
    let sim2 :=
      if sim.tape_recording then
        { sim with cache_manager := sim.cache_manager.addObservable obsKey MeasurementsT.Var }
      else sim
    .ok (value, sim2)

/-- Modelled from the spec: the marginal probabilities over a device-wire
subset computed by the external Measurement Engine (`Measurements::probs`),
§4.5 and glossary: "probability distribution over a strict subset of qubits,
obtained by summing out the remaining qubits' amplitudes", with the queried
wires in big-endian order over the output index and device wire 0 being the
most significant bit of the state index. -/
def marginalProbs (state : List Cq) (numQubits : Nat) (devWires : List Nat) : List ℚ :=
  let k := devWires.length
  let matches_ : Nat → Nat → Bool := fun i j =>
    (List.range k).all (fun t =>
      Nat.testBit i (numQubits - 1 - devWires.getD t 0) == Nat.testBit j (k - 1 - t))
  (List.range (2 ^ k)).map (fun j =>
    ((((List.range (2 ^ numQubits)).filter (fun i => matches_ i j)).map
      (fun i => normSq (state.getD i zeroC))).sum))

/-- `PartialProbs(probs, wires)` (source lines 254-271): wire-count and
wire-validity checks, wire translation, the external probability computation,
and the output-buffer size check, in source order. -/
def partialProbs (sim : Simulator) (bufSize : Nat) (wires : List Nat) :
    Except String (List ℚ) :=
  let numWires := wires.length
  let numQubits := sim.GetNumQubits
  if numWires > numQubits then .error "Invalid number of wires"
  else if !(isValidQubits sim wires) then .error "Invalid given wires to measure"
  else
    match getDeviceWires sim wires with
    | .error e => .error e
    | .ok dev_wires =>
      let dv_probs := marginalProbs sim.device_sv.data numQubits dev_wires
      if bufSize ≠ dv_probs.length then
        .error "Invalid size for the pre-allocated partial-probabilities"
      else .ok dv_probs

/-- The bits of one shot gathered over a wire list, in list order:
`li_samples[shot * numQubits + wire]` for each queried `wire`. -/
def gatherShotBits (samples : List Bool) (numQubits shot : Nat) (wires : List Nat) :
    List Bool :=
  wires.map (fun wire => samples.getD (shot * numQubits + wire) false)

/-- The histogram bin index the source computes: `basisState[idx++] = bit` on a
`std::bitset` (bit 0 is the least significant bit of `to_ulong()`), so the
bit gathered for the FIRST queried wire lands at bit 0 and the value is
`Σ bitᵢ · 2^i`. -/
def basisStateIndex : List Bool → Nat
  | [] => 0
  | b :: bs => (if b then 1 else 0) + 2 * basisStateIndex bs

/-- The spec's claimed bin index, following the spec's words only (refinement
comparison): "big-endian bit order (most significant bit = first queried
wire)". -/
def specBigEndianIndex (bits : List Bool) : Nat :=
  bits.foldl (fun acc b => 2 * acc + (if b then 1 else 0)) 0

/-- `counts(basisState.to_ulong()) += 1`: increment one histogram bin. -/
def incrAt (l : List Int) (i : Nat) : List Int := l.set i (l.getD i 0 + 1)

/-- The per-shot accumulation loop shared by `Counts` and `PartialCounts`
(source lines 355-362 and 399-406). -/
def countsLoop (samples : List Bool) (numQubits : Nat) (wires : List Nat)
    (shots : Nat) (counts0 : List Int) : List Int :=
  (List.range shots).foldl (fun cnts shot =>
    incrAt cnts (basisStateIndex (gatherShotBits samples numQubits shot wires))) counts0

/-- `Counts(eigvals, counts, shots)` (source lines 328-363): buffer-size check
against `1 << numQubits`, eigenvalues filled by `iota` with `0, 1, …`, counts
zeroed then accumulated over all device wires in order.  The per-shot bits come
from the external sampler and are passed in as `samples` (row-major
shots × qubits). -/
def countsSim (samples : List Bool) (sim : Simulator) (eigvalsSize countsSize shots : Nat) :
    Except String (List ℚ × List Int) :=
  let numQubits := sim.GetNumQubits
  let numElements := 2 ^ numQubits
  if eigvalsSize ≠ numElements ∨ countsSize ≠ numElements then
    .error "Invalid size for the pre-allocated counts"
  else
    .ok ((List.range numElements).map (fun i => (i : ℚ)),
         countsLoop samples numQubits (List.range numQubits) shots
           (List.replicate numElements 0))

/-- `PartialCounts(eigvals, counts, wires, shots)` (source lines 365-407): wire
checks, buffer-size check against `1 << numWires`, eigenvalues `0, 1, …`,
counts accumulated over the translated device wires in caller order. -/
def partialCountsSim (samples : List Bool) (sim : Simulator) (wires : List Nat)
    (eigvalsSize countsSize shots : Nat) : Except String (List ℚ × List Int) :=
  let numWires := wires.length
  let numQubits := sim.GetNumQubits
  let numElements := 2 ^ numWires
  if numWires > numQubits then .error "Invalid number of wires"
  else if !(isValidQubits sim wires) then .error "Invalid given wires to measure"
  else if eigvalsSize ≠ numElements ∨ countsSize ≠ numElements then
    .error "Invalid size for the pre-allocated partial-counts"
  else
    match getDeviceWires sim wires with
    | .error e => .error e
    | .ok dev_wires =>
      .ok ((List.range numElements).map (fun i => (i : ℚ)),
           countsLoop samples numQubits dev_wires shots (List.replicate numElements 0))

/-- The single-wire marginal probability of outcome 0 that `Measure` draws
against: `probs[0]` of `PartialProbs` on the one queried wire. -/
def measureP0 (sim : Simulator) (wire : Nat) : ℚ :=
  (marginalProbs sim.device_sv.data sim.GetNumQubits
    ((deviceWiresList sim.qubit_manager [wire]).getD [])).getD 0 0

/-- `Measure(wire)` (source lines 409-467).  The drawn uniform value is passed
in as `draw` (the external RNG).  The outcome is `draw > probs[0]`; then the
amplitudes whose wire-th bit disagrees with the outcome are zeroed with the
source's stride/section loop, and the remaining squared-magnitude mass `total`
is computed.  The source's final step divides every amplitude by
`norm = sqrt(total)` with NO guard on `total = 0`; since `√total` is
irrational in general, the embedding returns the collapsed (pre-division)
state together with `total` — the division is by zero exactly when the
returned `total` is 0.  The returned `Bool` is the outcome (`true` = One).
Note the function has no failure branch of its own beyond the checks inherited
from `PartialProbs` / `getDeviceWires`. -/
def measure (sim : Simulator) (wire : Nat) (draw : ℚ) :
    Except String (Bool × Simulator × ℚ) :=
  let wires : List Nat := [wire]
  match partialProbs sim (2 ^ wires.length) wires with
  | .error e => .error e
  | .ok probs =>
    let mres := decide (probs.getD 0 0 < draw)
    let num_qubits := sim.GetNumQubits
    match getDeviceWires sim wires with
    | .error e => .error e
    | .ok dev_wires =>
      let stride := 2 ^ (num_qubits - (1 + dev_wires.getD 0 0))
      let vec_size := 2 ^ num_qubits
      let half_sec_size := vec_size / stride / 2
      let k := if mres then 0 else 1
      let collapsed := (List.range half_sec_size).foldl (fun st idx =>
          (List.range stride).foldl (fun st2 ids =>
            st2.set (stride * (k + 2 * idx) + ids) zeroC) st)
        sim.device_sv.data
      let total := (collapsed.map normSq).sum
      .ok (mres, { sim with device_sv := ⟨num_qubits, collapsed⟩ }, total)

/-- The external adjoint-Jacobian kernel (§6): given parameter count, state,
recorded operations, recorded observable keys and the trainable-parameter
index list, returns the flat Jacobian values. -/
abbrev AdjKernel : Type := Nat → List Cq → List TapeOp → List Nat → List Nat → List ℚ

/-- The trainable-parameter list `Gradient` builds (source lines 509-521): all
recorded parameters `0, …, numParams - 1` in tape order when the caller's list
is empty, else the caller's list. -/
def gradientTrainParams (cm : CacheManager) (trainParams : List Nat) : List Nat :=
  if trainParams.isEmpty then List.range cm.getNumParams else trainParams

/-- The distribution loop of `Gradient` (source lines 529-537): for each
observable in order, move the next `num_train_params` Jacobian entries into
the head of the corresponding caller buffer.  The two `RT_ASSERT`s of the
source are the two failure branches. -/
def distributeJacobian (ntp : Nat) (jac : List ℚ) :
    List (List ℚ) → Except String (List (List ℚ))
  | [] => .ok []
  | g :: gs =>
    if jac.isEmpty then .error "assert: begin_loc_iter != jacobian.end()"
    else if !(decide (ntp ≤ g.length)) then
      .error "assert: num_train_params <= gradients[obs_idx].size()"
    else
      match distributeJacobian ntp (jac.drop ntp) gs with
      | .error e => .error e
      | .ok rest => .ok ((jac.take ntp ++ g.drop ntp) :: rest)

/-- The flat Jacobian `Gradient` obtains from the external adjoint kernel when
the trainable list is empty: the kernel invoked with trainable indices
`0, …, numParams - 1`, written into a zero-initialized buffer of size
`jac_size` (the kernel's output padded or truncated to that size). -/
def gradJacobian (adj : AdjKernel) (sim : Simulator) : List ℚ :=
  let num_params := sim.cache_manager.getNumParams
  let jac_size := num_params * sim.cache_manager.getNumObservables
  ((adj num_params sim.device_sv.data sim.cache_manager.ops
      sim.cache_manager.getObservablesKeys (List.range num_params))
    ++ List.replicate jac_size 0).take jac_size

/-- `Gradient(gradients, trainParams)` (source lines 469-538): early no-op
return when `jac_size = 0`; buffer-count check (`InvalidArity`); the
all-Expval check (`UnsupportedMeasurement`); then the external adjoint kernel
on the recorded tape with the trainable list, and the distribution loop.
`gradients` carries the caller buffers; the returned list is their contents
after the call. -/
def gradient (adj : AdjKernel) (sim : Simulator) (gradients : List (List ℚ))
    (trainParams : List Nat) : Except String (List (List ℚ)) :=
  let tp_empty := trainParams.isEmpty
  let num_observables := sim.cache_manager.getNumObservables
  let num_params := sim.cache_manager.getNumParams
  let num_train_params := if tp_empty then num_params else trainParams.length
  let jac_size := num_train_params * num_observables
  if jac_size = 0 then .ok gradients
  else if gradients.length ≠ num_observables then
    .error "Invalid number of pre-allocated gradients"
  else if !(sim.cache_manager.getObservablesCallees.all
              (fun m => m == MeasurementsT.Expval)) then
    .error "Unsupported measurements to compute gradient; Adjoint differentiation method only supports expectation return type"
  else
    let tps := gradientTrainParams sim.cache_manager trainParams
    let raw := adj num_params sim.device_sv.data sim.cache_manager.ops
      sim.cache_manager.getObservablesKeys tps
    let jacobian := (raw ++ List.replicate jac_size 0).take jac_size
    distributeJacobian num_train_params jacobian gradients

/-- The number of shots whose gathered bits map to histogram bin `j` under the
source's bin-index function. -/
def shotsMatching (samples : List Bool) (numQubits : Nat) (wires : List Nat)
    (shots j : Nat) : Nat :=
  ((List.range shots).filter (fun shot =>
    basisStateIndex (gatherShotBits samples numQubits shot wires) == j)).length

/-- A concrete gate kernel marking that it ran: it replaces the state data by
the single amplitude 5. -/
def markKernel : GateKernel := fun _ _ _ _ _ => [((5 : ℚ), (0 : ℚ))]

/-- A concrete matrix kernel that leaves the state data unchanged. -/
def idMatrixKernel : MatrixKernel := fun _ _ _ s => s

/-- A concrete adjoint kernel returning no values. -/
def zeroAdjKernel : AdjKernel := fun _ _ _ _ _ => []

/-- A concrete adjoint kernel returning the single Jacobian value 7. -/
def sevenAdjKernel : AdjKernel := fun _ _ _ _ _ => [(7 : ℚ)]

/-- A simulator with two allocated qubits in the |00⟩ state. -/
def sim2q : Simulator :=
  { device_sv := StateVector.init 2,
    qubit_manager := ⟨2, [(0, 0), (1, 1)], [0, 1]⟩,
    obs_manager := ⟨0⟩, tape_recording := false,
    cache_manager := CacheManager.empty, device_shots := 0 }

/-- A one-qubit simulator in the state (3/5)|0⟩ + (4/5)|1⟩. -/
def sim1q34 : Simulator :=
  { device_sv := ⟨1, [((3/5 : ℚ), (0 : ℚ)), ((4/5 : ℚ), (0 : ℚ))]⟩,
    qubit_manager := ⟨1, [(0, 0)], [0]⟩,
    obs_manager := ⟨0⟩, tape_recording := false,
    cache_manager := CacheManager.empty, device_shots := 0 }

/-- `sim1q34` after `Measure` collapses it to outcome 0 (pre-normalization). -/
def simC4After : Simulator :=
  { sim1q34 with device_sv := ⟨1, [((3/5 : ℚ), (0 : ℚ)), zeroC]⟩ }

/-- A one-qubit simulator in the basis state |1⟩. -/
def sim1qOne : Simulator :=
  { device_sv := ⟨1, [zeroC, oneC]⟩,
    qubit_manager := ⟨1, [(0, 0)], [0]⟩,
    obs_manager := ⟨0⟩, tape_recording := false,
    cache_manager := CacheManager.empty, device_shots := 0 }

/-- A one-qubit simulator with one registered observable (key 0), recording
active, tape empty: the state right after `StartTapeRecording`. -/
def simC3base : Simulator :=
  { device_sv := StateVector.init 1,
    qubit_manager := ⟨1, [(0, 0)], [0]⟩,
    obs_manager := ⟨1⟩, tape_recording := true,
    cache_manager := CacheManager.empty, device_shots := 0 }

/-- `simC3base` after recording one Var-kind measurement of observable 0. -/
def simC3Var : Simulator :=
  { simC3base with cache_manager := ⟨[], [(0, MeasurementsT.Var)]⟩ }

/-- A one-qubit simulator whose tape recorded one single-parameter gate and one
Expval use of observable 0. -/
def simC9 : Simulator :=
  { device_sv := StateVector.init 1,
    qubit_manager := ⟨1, [(0, 0)], [0]⟩,
    obs_manager := ⟨1⟩, tape_recording := false,
    cache_manager := ⟨[⟨"RX", [(1 : ℚ)], [0], false⟩], [(0, MeasurementsT.Expval)]⟩,
    device_shots := 0 }

/-- `simC9` with the recorded observable use turned into a Var-kind one. -/
def simC9Var : Simulator :=
  { simC9 with cache_manager := ⟨simC9.cache_manager.ops, [(0, MeasurementsT.Var)]⟩ }

/-- A one-qubit simulator with recording active and an empty tape. -/
def simRec1 : Simulator :=
  { device_sv := StateVector.init 1,
    qubit_manager := ⟨1, [(0, 0)], [0]⟩,
    obs_manager := ⟨0⟩, tape_recording := true,
    cache_manager := CacheManager.empty, device_shots := 0 }

/-- `simRec1` after one recorded `MatrixOperation` on wire 0. -/
def simMat1 : Simulator :=
  { simRec1 with cache_manager := ⟨[⟨"MatrixOp", [], [0], false⟩], []⟩ }

/-- C7: `StartTapeRecording` fails with the AlreadyRecording error whenever
recording is active and otherwise transitions to Recording while clearing all
tape entries; `StopTapeRecording` fails with the NotRecording error whenever
recording is inactive and otherwise transitions to Idle leaving the tape
entries untouched. -/
theorem c7_tape_state_machine (sim : Simulator) :
    startTapeRecording sim = (if sim.tape_recording then
        Except.error "Cannot re-activate the cache manager"
      else Except.ok { sim with tape_recording := true,
                                cache_manager := CacheManager.empty })
    ∧ stopTapeRecording sim = (if sim.tape_recording then
        Except.ok { sim with tape_recording := false }
      else Except.error "Cannot stop an already stopped cache manager") := by
  cases h : sim.tape_recording <;>
    simp [startTapeRecording, stopTapeRecording, CacheManager.Reset, h]

/-- C8: `AllocateQubits(k)` grows the qubit count by exactly `k` and returns
`k` pairwise-distinct ids never issued before (given the qubit-manager
freshness invariant, which is preserved); `AllocateQubits(0)` returns an empty
sequence with no side effect on the simulator state; after
`ReleaseAllQubits`, `GetNumQubits()` returns 0. -/
theorem c8_allocate_grow_fresh (sim : Simulator) (k : Nat)
    (hwf : sim.qubit_manager.wf) :
    (allocateQubits sim k).2.length = k
    ∧ (allocateQubits sim k).1.GetNumQubits = sim.GetNumQubits + k
    ∧ (allocateQubits sim k).2.Nodup
    ∧ (∀ id ∈ (allocateQubits sim k).2, id ∉ sim.qubit_manager.issued)
    ∧ (allocateQubits sim k).1.qubit_manager.wf
    ∧ allocateQubits sim 0 = (sim, [])
    ∧ (releaseAllQubits sim).GetNumQubits = 0 := by
  have hrel : (releaseAllQubits sim).GetNumQubits = 0 := rfl
  have hzero : allocateQubits sim 0 = (sim, []) := rfl
  rcases Nat.eq_zero_or_pos k with rfl | hk
  · exact ⟨rfl, by simp [hzero], by simp [hzero], by simp [hzero], by simpa [hzero] using hwf,
      hzero, hrel⟩
  · have hne : k ≠ 0 := Nat.pos_iff_ne_zero.mp hk
    have halloc1 : (allocateQubits sim k).1
        = { sim with
            device_sv := StateVector.init (sim.device_sv.numQubits + k),
            qubit_manager := (sim.qubit_manager.AllocateRange sim.device_sv.numQubits
              (sim.device_sv.numQubits + k)).1 } := by
      simp [allocateQubits, hne]
    have halloc2 : (allocateQubits sim k).2
        = (List.range k).map (fun i => sim.qubit_manager.nextId + i) := by
      simp [allocateQubits, hne, QubitManager.AllocateRange]
    refine ⟨?_, ?_, ?_, ?_, ?_, hzero, hrel⟩
    · rw [halloc2]; simp
    · rw [halloc1]; simp [Simulator.GetNumQubits, StateVector.init]
    · rw [halloc2]
      exact List.Nodup.map (fun a b hab => by omega) (List.nodup_range _)
    · intro id hid hmem
      rw [halloc2] at hid
      simp only [List.mem_map, List.mem_range] at hid
      obtain ⟨i, -, rfl⟩ := hid
      have := hwf _ hmem
      omega
    · show ((allocateQubits sim k).1.qubit_manager).wf
      rw [halloc1]
      intro id hid
      simp only [QubitManager.AllocateRange, List.mem_append, List.mem_map,
        List.mem_range] at hid ⊢
      rcases hid with hold | ⟨i, hi, rfl⟩
      · have := hwf _ hold; omega
      · omega

/-- Witness for C8 at a concrete input: allocating 2 qubits on a fresh
simulator returns 2 ids and grows the count from 0 to 2. -/
theorem c8_allocate_grow_fresh_witness :
    (allocateQubits Simulator.init 2).2.length = 2
    ∧ (allocateQubits Simulator.init 2).1.GetNumQubits
        = Simulator.init.GetNumQubits + 2 := by
  have h := c8_allocate_grow_fresh Simulator.init 2 (by decide)
  exact ⟨h.1, h.2.1⟩

/-- C10: while recording is active, a successful `MatrixOperation` appends
exactly one tape entry whose name is the fixed string `"MatrixOp"` and whose
parameter list is empty; the tape's parameter count is unchanged, so the
trainable-parameter set a subsequent `Gradient` call derives from the tape is
also unchanged. -/
theorem c10_matrix_op_tape_entry (applyMat : MatrixKernel) (sim sim2 : Simulator)
    (matrix : List Cq) (wires : List Nat) (inv : Bool) (trainParams : List Nat)
    (hrec : sim.tape_recording = true)
    (hok : matrixOperation applyMat sim matrix wires inv = .ok sim2) :
    (∃ dw, getDeviceWires sim wires = .ok dw
      ∧ sim2.cache_manager.ops = sim.cache_manager.ops ++ [⟨"MatrixOp", [], dw, inv⟩])
    ∧ sim2.cache_manager.getNumParams = sim.cache_manager.getNumParams
    ∧ gradientTrainParams sim2.cache_manager trainParams
        = gradientTrainParams sim.cache_manager trainParams := by
  unfold matrixOperation at hok
  split at hok
  · exact absurd hok (by simp)
  · cases hdw : getDeviceWires sim wires with
    | error e => rw [hdw] at hok; exact absurd hok (by simp)
    | ok dw =>
      rw [hdw] at hok
      simp only [hrec, if_true, Except.ok.injEq] at hok
      subst hok
      have hparams : (sim.cache_manager.addOperation "MatrixOp" [] dw inv).getNumParams
          = sim.cache_manager.getNumParams := by
        simp [CacheManager.getNumParams, CacheManager.addOperation]
      refine ⟨⟨dw, rfl, by simp [CacheManager.addOperation]⟩, hparams, ?_⟩
      simp [gradientTrainParams, hparams]

/-- Witness for C10 at a concrete input: a recorded `MatrixOperation` on wire
0 appends the entry `("MatrixOp", [], [0], false)` and leaves the parameter
count at 0. -/
theorem c10_matrix_op_tape_entry_witness :
    (∃ dw, getDeviceWires simRec1 [0] = .ok dw
      ∧ simMat1.cache_manager.ops = simRec1.cache_manager.ops
          ++ [⟨"MatrixOp", [], dw, false⟩])
    ∧ simMat1.cache_manager.getNumParams = simRec1.cache_manager.getNumParams := by
  have h := c10_matrix_op_tape_entry idMatrixKernel simRec1 simMat1
    [oneC, zeroC, zeroC, oneC] [0] false [] rfl (by rfl)
  exact ⟨h.1, h.2.1⟩

/-- C1 counterexample: `"PauliX"` is in the gate table with wire arity 1;
calling `NamedOperation` with two wires (wire count 2 ≠ 1, parameter count
matching) does NOT fail — it succeeds and the operation IS applied to the
state vector through the kernel — refuting the claim that every wire-count
mismatch for a known gate fails with an arity error without touching the
state. -/
theorem c1_counterexample :
    lookup_gates simulator_gate_info "PauliX" = .ok (1, 0)
    ∧ ([0, 1] : List Nat).length ≠ 1
    ∧ namedOperation markKernel sim2q "PauliX" [] [0, 1] false
        = .ok { sim2q with device_sv :=
            ⟨2, markKernel "PauliX" [0, 1] false [] sim2q.device_sv.data⟩ } := by
  exact ⟨rfl, by decide, rfl⟩

/-- C1 (amended): for a gate in the table with declared arities `(w, p)`, the
parameter-count check always fails a mismatched call (with the source's
"Invalid number of parameters" error), but the wire-count check only fires
when the supplied wire list is empty while the gate declares a nonzero wire
arity ("Invalid number of qubits"); a nonempty wire list of the wrong length
is not rejected by the arity check.  On every failure nothing is applied to
the state vector (no success state is produced). -/
theorem c1_amended_arity_checks (applyOp : GateKernel) (sim : Simulator)
    (name : String) (params : List ℚ) (wires : List Nat) (inv : Bool) (w p : Nat)
    (hlook : lookup_gates simulator_gate_info name = .ok (w, p)) :
    (wires = [] → w ≠ 0 →
      namedOperation applyOp sim name params wires inv
        = .error "Invalid number of qubits")
    ∧ (wires ≠ [] → params.length ≠ p →
      namedOperation applyOp sim name params wires inv
        = .error "Invalid number of parameters")
    ∧ (wires = [] → w = 0 → params.length ≠ p →
      namedOperation applyOp sim name params wires inv
        = .error "Invalid number of parameters") := by
  simp only [namedOperation, hlook]
  refine ⟨?_, ?_, ?_⟩
  · intro h1 h2
    subst h1
    rw [if_pos ⟨rfl, fun hh => h2 hh.symm⟩]
  · intro h1 h2
    rw [if_neg (fun hc => h1 (List.length_eq_zero.mp hc.1)), if_pos h2]
  · intro h1 h2 h3
    subst h1 h2
    rw [if_neg (fun hc => hc.2 rfl), if_pos h3]

/-- Witness for C1 (amended) at concrete inputs: `"RX"` declares arities
(1, 1); the empty wire list fails the qubit check, and a correct wire list
with a missing parameter fails the parameter check. -/
theorem c1_amended_arity_checks_witness :
    namedOperation markKernel sim2q "RX" [] [] false
      = .error "Invalid number of qubits"
    ∧ namedOperation markKernel sim2q "RX" [] [0] false
      = .error "Invalid number of parameters" := by
  have h1 := c1_amended_arity_checks markKernel sim2q "RX" [] [] false 1 1 rfl
  have h2 := c1_amended_arity_checks markKernel sim2q "RX" [] [0] false 1 1 rfl
  exact ⟨h1.1 rfl (by decide), h2.2.1 (by decide) (by decide)⟩

/-- The distribution loop succeeds when the Jacobian has exactly
`ntp * (number of buffers)` entries and every buffer holds at least `ntp`
values, and then buffer `i` receives the `i`-th contiguous `ntp`-segment of
the Jacobian followed by its own untouched tail. -/
theorem distributeJacobian_spec (ntp : Nat) (hntp : 0 < ntp) :
    ∀ (gradients : List (List ℚ)) (jac : List ℚ),
      jac.length = ntp * gradients.length →
      (∀ g ∈ gradients, ntp ≤ g.length) →
      ∃ res, distributeJacobian ntp jac gradients = .ok res
        ∧ res.length = gradients.length
        ∧ ∀ i, i < gradients.length →
            res.getD i [] = (jac.drop (i * ntp)).take ntp
              ++ (gradients.getD i []).drop ntp := by
  intro gradients
  induction gradients with
  | nil =>
    intro jac _ _
    exact ⟨[], rfl, rfl, fun i hi => by simp at hi⟩
  | cons g gs ih =>
    intro jac hlen hsz
    have hjne : ¬jac.isEmpty := by
      cases jac with
      | nil => simp [List.length_cons] at hlen; omega
      | cons a as => simp
    have hg : ntp ≤ g.length := hsz g (by simp)
    obtain ⟨res, hres, hreslen, hspec⟩ := ih (jac.drop ntp)
      (by simp [List.length_drop, hlen, List.length_cons]; ring_nf; omega)
      (fun x hx => hsz x (by simp [hx]))
    refine ⟨(jac.take ntp ++ g.drop ntp) :: res, ?_, by simp [hreslen], ?_⟩
    · unfold distributeJacobian
      rw [if_neg hjne, if_neg (by simp [hg]), hres]
    · intro i hi
      cases i with
      | zero => simp
      | succ n =>
        simp only [List.getD_cons_succ]
        rw [hspec n (by simpa using hi), List.drop_drop]
        congr 2
        ring_nf


/-- The flat Jacobian buffer has exactly `numParams * numObservables` entries. -/
theorem gradJacobian_length (adj : AdjKernel) (sim : Simulator) :
    (gradJacobian adj sim).length
      = sim.cache_manager.getNumParams * sim.cache_manager.getNumObservables := by
  simp [gradJacobian]

/-- With an empty trainable list, a `Gradient` call that passes all its checks
reduces to distributing the kernel's Jacobian (computed over the trainable
list `0, …, numParams - 1`). -/
theorem gradient_tp_empty_eq (adj : AdjKernel) (sim : Simulator)
    (gradients : List (List ℚ))
    (hjac : sim.cache_manager.getNumParams * sim.cache_manager.getNumObservables ≠ 0)
    (hlen : gradients.length = sim.cache_manager.getNumObservables)
    (hexp : sim.cache_manager.getObservablesCallees.all
        (fun m => m == MeasurementsT.Expval) = true) :
    gradient adj sim gradients []
      = distributeJacobian sim.cache_manager.getNumParams (gradJacobian adj sim)
          gradients := by
  simp only [gradient, List.isEmpty_nil, if_true]
  rw [if_neg hjac, if_neg (fun h => h hlen), hexp]
  simp [gradientTrainParams, gradJacobian]

/-- C3 counterexample: `simC3Var` records exactly one Var-kind measurement
(and no parameterized gate), its buffers match the observable count, yet
`Gradient` returns successfully as a no-op — the early `jac_size = 0` return
runs before the measurement-kind check — refuting the claim that every tape
with a Var entry makes `Gradient` fail. -/
theorem c3_counterexample :
    var simC3base 0 0 = .ok (0, simC3Var)
    ∧ simC3Var.cache_manager.getObservablesCallees = [MeasurementsT.Var]
    ∧ ([[]] : List (List ℚ)).length = simC3Var.cache_manager.getNumObservables
    ∧ gradient zeroAdjKernel simC3Var [[]] [] = .ok [[]] := by
  exact ⟨rfl, rfl, rfl, rfl⟩

/-- C3 (amended): whenever the tape holds at least one Var-kind observable
use, the trainable-parameter count is nonzero and the buffer count matches
the observable count, `Gradient` fails with the UnsupportedMeasurement
error. -/
theorem c3_amended_var_rejected (adj : AdjKernel) (sim : Simulator)
    (gradients : List (List ℚ)) (trainParams : List Nat)
    (hvar : MeasurementsT.Var ∈ sim.cache_manager.getObservablesCallees)
    (hntp : (if trainParams.isEmpty then sim.cache_manager.getNumParams
              else trainParams.length) ≠ 0)
    (hlen : gradients.length = sim.cache_manager.getNumObservables) :
    gradient adj sim gradients trainParams
      = .error "Unsupported measurements to compute gradient; Adjoint differentiation method only supports expectation return type" := by
  have hobs : sim.cache_manager.getNumObservables ≠ 0 := by
    simp only [CacheManager.getObservablesCallees, List.mem_map] at hvar
    obtain ⟨pair, hpair, -⟩ := hvar
    have := List.length_pos.mpr (List.ne_nil_of_mem hpair)
    simp only [CacheManager.getNumObservables]
    omega
  have hall : sim.cache_manager.getObservablesCallees.all
      (fun m => m == MeasurementsT.Expval) = false := by
    cases hA : sim.cache_manager.getObservablesCallees.all
        (fun m => m == MeasurementsT.Expval) with
    | false => rfl
    | true =>
      have := List.all_eq_true.mp hA _ hvar
      simp at this
  simp only [gradient]
  rw [if_neg (Nat.mul_ne_zero hntp hobs), if_neg (fun h => h hlen), hall]
  rfl

/-- Witness for C3 (amended) at a concrete input: a tape with one
single-parameter gate and one Var-kind use fails `Gradient` with the
UnsupportedMeasurement error. -/
theorem c3_amended_var_rejected_witness :
    gradient sevenAdjKernel simC9Var [[0]] []
      = .error "Unsupported measurements to compute gradient; Adjoint differentiation method only supports expectation return type" := by
  exact c3_amended_var_rejected sevenAdjKernel simC9Var [[0]] []
    (by decide) (by decide) (by decide)

/-- C6 counterexample: on a fresh simulator the tape holds zero observables;
calling `Gradient` with one output buffer (a count mismatch) succeeds as a
no-op instead of failing with InvalidArity, because the early `jac_size = 0`
return runs before the buffer-count check. -/
theorem c6_counterexample :
    Simulator.init.cache_manager.getNumObservables = 0
    ∧ ([[]] : List (List ℚ)).length ≠ Simulator.init.cache_manager.getNumObservables
    ∧ gradient zeroAdjKernel Simulator.init [[]] [] = .ok [[]] := by
  exact ⟨rfl, by decide, rfl⟩

/-- C6 (amended): whenever `jac_size ≠ 0` (nonzero trainable-parameter count
and nonzero observable count), a `Gradient` call whose output-buffer count
differs from the recorded observable count fails with the InvalidArity
error. -/
theorem c6_amended_arity_guard (adj : AdjKernel) (sim : Simulator)
    (gradients : List (List ℚ)) (trainParams : List Nat)
    (hjac : (if trainParams.isEmpty then sim.cache_manager.getNumParams
              else trainParams.length) * sim.cache_manager.getNumObservables ≠ 0)
    (hlen : gradients.length ≠ sim.cache_manager.getNumObservables) :
    gradient adj sim gradients trainParams
      = .error "Invalid number of pre-allocated gradients" := by
  simp only [gradient]
  rw [if_neg hjac, if_pos hlen]

/-- Witness for C6 (amended) at a concrete input: one recorded parameter and
one recorded observable with an empty buffer list fails with InvalidArity. -/
theorem c6_amended_arity_guard_witness :
    gradient sevenAdjKernel simC9 [] []
      = .error "Invalid number of pre-allocated gradients" := by
  exact c6_amended_arity_guard sevenAdjKernel simC9 [] [] (by decide) (by decide)

/-- C9: with an empty trainable-parameter list, `Gradient` treats all recorded
parameters `0, …, numParams - 1` (tape order) as trainable, and on success
each recorded observable's contiguous `numTrainParams`-length segment of the
flat Jacobian is copied into the head of the corresponding caller buffer. -/
theorem c9_gradient_distribution (adj : AdjKernel) (sim : Simulator)
    (gradients : List (List ℚ))
    (hjac : sim.cache_manager.getNumParams * sim.cache_manager.getNumObservables ≠ 0)
    (hlen : gradients.length = sim.cache_manager.getNumObservables)
    (hexp : sim.cache_manager.getObservablesCallees.all
        (fun m => m == MeasurementsT.Expval) = true)
    (hbuf : ∀ g ∈ gradients, sim.cache_manager.getNumParams ≤ g.length) :
    gradientTrainParams sim.cache_manager []
      = List.range sim.cache_manager.getNumParams
    ∧ ∃ res, gradient adj sim gradients [] = .ok res
        ∧ res.length = gradients.length
        ∧ ∀ i, i < gradients.length →
            res.getD i []
              = ((gradJacobian adj sim).drop (i * sim.cache_manager.getNumParams)).take
                  sim.cache_manager.getNumParams
                ++ (gradients.getD i []).drop sim.cache_manager.getNumParams := by
  have hntp : 0 < sim.cache_manager.getNumParams :=
    Nat.pos_of_ne_zero (fun h => hjac (by rw [h, Nat.zero_mul]))
  obtain ⟨res, hres, hreslen, hspec⟩ :=
    distributeJacobian_spec sim.cache_manager.getNumParams hntp gradients
      (gradJacobian adj sim) (by rw [gradJacobian_length, hlen]) hbuf
  refine ⟨by simp [gradientTrainParams], res, ?_, hreslen, hspec⟩
  rw [gradient_tp_empty_eq adj sim gradients hjac hlen hexp]
  exact hres

/-- Witness for C9 at a concrete input: one recorded parameter, one Expval
observable, a kernel returning the single value 7, and a buffer of length 1
succeed with a result of one buffer. -/
theorem c9_gradient_distribution_witness :
    ∃ res, gradient sevenAdjKernel simC9 [[0]] [] = .ok res ∧ res.length = 1 := by
  obtain ⟨-, res, hres, hreslen, -⟩ :=
    c9_gradient_distribution sevenAdjKernel simC9 [[0]]
      (by decide) (by decide) (by decide) (by decide)
  exact ⟨res, hres, by simpa using hreslen⟩

/-- A successful `PartialProbs` call returns exactly the marginal distribution
over the translated device wires. -/
theorem partialProbs_ok_eq (sim : Simulator) (bufSize : Nat) (wires : List Nat)
    (probs : List ℚ) (h : partialProbs sim bufSize wires = .ok probs) :
    ∃ dws, deviceWiresList sim.qubit_manager wires = some dws
      ∧ probs = marginalProbs sim.device_sv.data sim.GetNumQubits dws := by
  simp only [partialProbs] at h
  repeat' split at h
  all_goals try (exfalso; simp at h; done)
  rename_i dev_wires heq hsize
  simp only [Except.ok.injEq] at h
  subst h
  unfold getDeviceWires at heq
  split at heq
  case _ dws hdvw =>
    simp only [Except.ok.injEq] at heq
    subst heq
    exact ⟨dws, hdvw, rfl⟩
  case _ => exact absurd heq (by simp)

/-- C4 (amended): whenever `Measure` succeeds, the collapse outcome is 1
(`true`) exactly when the drawn uniform value `u` is strictly greater than the
single-wire marginal probability `p0` of outcome 0; in particular the tie
`u = p0` yields outcome 0, matching the source's strict `draw > probs[0]`
comparison. -/
theorem c4_amended_outcome_rule (sim : Simulator) (wire : Nat) (u : ℚ)
    (r : Bool × Simulator × ℚ) (hok : measure sim wire u = .ok r) :
    r.1 = decide (measureP0 sim wire < u)
    ∧ (u = measureP0 sim wire → r.1 = false) := by
  simp only [measure] at hok
  split at hok
  · exact absurd hok (by simp)
  case h_2 probs hpp =>
    split at hok
    · exact absurd hok (by simp)
    case h_2 dev_wires hdw =>
      simp only [Except.ok.injEq] at hok
      subst hok
      obtain ⟨dws, hdvw, hprobs⟩ := partialProbs_ok_eq sim _ [wire] probs hpp
      have hp0 : probs.getD 0 0 = measureP0 sim wire := by
        rw [hprobs]
        simp only [measureP0, hdvw, Option.getD_some]
      refine ⟨?_, ?_⟩
      · show decide (probs.getD 0 0 < u) = decide (measureP0 sim wire < u)
        rw [hp0]
      · intro hu
        show decide (probs.getD 0 0 < u) = false
        rw [hp0, hu]
        simp

/-- C4 counterexample: on the state (3/5)|0⟩ + (4/5)|1⟩ the single-wire
marginal probability of outcome 0 is p0 = 9/25; drawing exactly u = p0 = 9/25
returns outcome 0 (`false`, the source's `Zero()` result), not outcome 1 —
the source's strict `draw > probs[0]` comparison sends the tie `u == p0` to
outcome 0, refuting the claim that the tie yields outcome 1. -/
theorem c4_counterexample :
    measureP0 sim1q34 0 = 9/25
    ∧ measure sim1q34 0 (9/25) = .ok (false, simC4After, 9/25) := by
  constructor
  · norm_num [measureP0, marginalProbs, deviceWiresList, QubitManager.getDeviceWire,
      Simulator.GetNumQubits, sim1q34, normSq, zeroC, List.range_succ,
      show List.range 1 = [0] from rfl]
  · norm_num [measure, partialProbs, marginalProbs, getDeviceWires, deviceWiresList,
      isValidQubits, QubitManager.getDeviceWire, Simulator.GetNumQubits, sim1q34,
      simC4After, normSq, zeroC, List.range_succ, incrAt,
      show List.range 1 = [0] from rfl]

/-- Witness for C4 (amended) at a concrete input: applying the outcome rule to
the concrete tie `u = p0 = 9/25` on `sim1q34` gives outcome `false`. -/
theorem c4_amended_outcome_rule_witness :
    (false : Bool) = decide (measureP0 sim1q34 0 < (9/25 : ℚ)) := by
  have h := c4_amended_outcome_rule sim1q34 0 (9/25) (false, simC4After, 9/25)
    (by norm_num [measure, partialProbs, marginalProbs, getDeviceWires, deviceWiresList,
      isValidQubits, QubitManager.getDeviceWire, Simulator.GetNumQubits, sim1q34,
      simC4After, normSq, zeroC, List.range_succ, incrAt,
      show List.range 1 = [0] from rfl])
  exact h.1

/-- C5 (code bug evidence): on the one-qubit state |1⟩ with drawn value
u = 0, the outcome is 0, the collapse zeroes every amplitude, and `Measure`
returns successfully with remaining probability mass `total = 0` — there is
no DegenerateRenormalization failure, so the subsequent division of every
amplitude by `norm = √total = 0` is an unguarded division by zero, exactly
the guard the claim (and the spec) requires. -/
theorem c5_no_degenerate_guard :
    measure sim1qOne 0 0
      = .ok (false, { sim1qOne with device_sv := ⟨1, [zeroC, zeroC]⟩ }, 0) := by
  norm_num [measure, partialProbs, marginalProbs, getDeviceWires, deviceWiresList,
    isValidQubits, QubitManager.getDeviceWire, Simulator.GetNumQubits, sim1qOne,
    normSq, zeroC, oneC, List.range_succ, incrAt,
    show List.range 1 = [0] from rfl]

/-- The source's bin index is always within the histogram: it is below
`2 ^ (number of gathered bits)`. -/
theorem basisStateIndex_lt (bits : List Bool) :
    basisStateIndex bits < 2 ^ bits.length := by
  induction bits with
  | nil => simp [basisStateIndex]
  | cons b bs ih =>
    simp only [basisStateIndex, List.length_cons, pow_succ]
    cases b <;> simp <;> omega

/-- One bit is gathered per queried wire. -/
theorem gatherShotBits_length (samples : List Bool) (nq shot : Nat)
    (wires : List Nat) :
    (gatherShotBits samples nq shot wires).length = wires.length := by
  simp [gatherShotBits]

/-- Incrementing a bin preserves the histogram size. -/
theorem incrAt_length (l : List Int) (i : Nat) : (incrAt l i).length = l.length := by
  simp [incrAt]

/-- Incrementing bin `i` adds one at position `i` and changes nothing else. -/
theorem incrAt_getD (l : List Int) (i j : Nat) (hj : j < l.length) :
    (incrAt l i).getD j 0 = if i = j then l.getD j 0 + 1 else l.getD j 0 := by
  unfold incrAt
  rcases eq_or_ne i j with rfl | hne
  · rw [if_pos rfl, List.getD_eq_getElem?_getD, List.getElem?_set_eq_of_lt _ hj]
    rfl
  · rw [if_neg hne, List.getD_eq_getElem?_getD, List.getElem?_set_ne hne,
      ← List.getD_eq_getElem?_getD]

/-- Unrolling the per-shot accumulation loop by one shot. -/
theorem countsLoop_succ (samples : List Bool) (nq : Nat) (wires : List Nat)
    (shots : Nat) (counts0 : List Int) :
    countsLoop samples nq wires (shots + 1) counts0
      = incrAt (countsLoop samples nq wires shots counts0)
          (basisStateIndex (gatherShotBits samples nq shots wires)) := by
  simp [countsLoop, List.range_succ]

/-- The accumulation loop preserves the histogram size. -/
theorem countsLoop_length (samples : List Bool) (nq : Nat) (wires : List Nat)
    (shots : Nat) (counts0 : List Int) :
    (countsLoop samples nq wires shots counts0).length = counts0.length := by
  induction shots with
  | zero => rfl
  | succ n ih => rw [countsLoop_succ, incrAt_length, ih]

/-- Unrolling the matching-shot count by one shot. -/
theorem shotsMatching_succ (samples : List Bool) (nq : Nat) (wires : List Nat)
    (shots j : Nat) :
    shotsMatching samples nq wires (shots + 1) j
      = shotsMatching samples nq wires shots j
        + (if basisStateIndex (gatherShotBits samples nq shots wires) = j
           then 1 else 0) := by
  simp only [shotsMatching, List.range_succ, List.filter_append, List.length_append]
  congr 1
  rcases eq_or_ne (basisStateIndex (gatherShotBits samples nq shots wires)) j
    with heq | hne
  · simp [heq]
  · simp [hne]

/-- Every bin of the accumulated histogram counts exactly the shots whose
gathered bits map to it under the source's bin-index function. -/
theorem countsLoop_histogram (samples : List Bool) (nq : Nat) (wires : List Nat)
    (shots : Nat) (counts0 : List Int) (hlen : counts0.length = 2 ^ wires.length)
    (j : Nat) (hj : j < 2 ^ wires.length) :
    (countsLoop samples nq wires shots counts0).getD j 0
      = counts0.getD j 0 + (shotsMatching samples nq wires shots j : Int) := by
  induction shots with
  | zero => simp [countsLoop, shotsMatching]
  | succ n ih =>
    rw [countsLoop_succ,
      incrAt_getD _ _ _ (by rw [countsLoop_length, hlen]; exact hj),
      shotsMatching_succ]
    rcases eq_or_ne (basisStateIndex (gatherShotBits samples nq n wires)) j
      with heq | hne
    · rw [if_pos heq, if_pos heq, ih]
      push_cast
      ring
    · rw [if_neg hne, if_neg hne, ih]
      simp

/-- Wire translation preserves the number of wires. -/
theorem deviceWiresList_length (qm : QubitManager) :
    ∀ ws ds, deviceWiresList qm ws = some ds → ds.length = ws.length := by
  intro ws
  induction ws with
  | nil =>
    intro ds h
    simp only [deviceWiresList, Option.some.injEq] at h
    simp [← h]
  | cons w ws ih =>
    intro ds h
    simp only [deviceWiresList] at h
    split at h
    case _ d ds2 hd hds =>
      simp only [Option.some.injEq] at h
      rw [← h]
      simp [ih _ hds]
    case _ =>
      exact absurd h (by simp)

/-- C2 (amended): in `Counts` and `PartialCounts` the eigenvalue buffer holds
the integers `0, …, 2^k - 1` in order, and each shot's histogram bin index is
the gathered per-shot bits read as an integer in LITTLE-endian bit order: the
bit of the FIRST queried wire is the LEAST significant bit of the bin index
(the source writes `basisState[idx++]` on a `std::bitset`, whose bit 0 is the
least significant bit of `to_ulong()`). -/
theorem c2_amended_counts_binning (sim : Simulator) (samples : List Bool)
    (wires : List Nat) (shots : Nat) :
    (∀ eig cnts,
      countsSim samples sim (2 ^ sim.GetNumQubits) (2 ^ sim.GetNumQubits) shots
          = .ok (eig, cnts) →
        eig = (List.range (2 ^ sim.GetNumQubits)).map (fun i => (i : ℚ))
        ∧ ∀ j, j < 2 ^ sim.GetNumQubits →
            cnts.getD j 0
              = (shotsMatching samples sim.GetNumQubits
                  (List.range sim.GetNumQubits) shots j : Int))
    ∧ (∀ eig cnts dws,
      partialCountsSim samples sim wires (2 ^ wires.length) (2 ^ wires.length) shots
          = .ok (eig, cnts) →
      deviceWiresList sim.qubit_manager wires = some dws →
        eig = (List.range (2 ^ wires.length)).map (fun i => (i : ℚ))
        ∧ ∀ j, j < 2 ^ wires.length →
            cnts.getD j 0
              = (shotsMatching samples sim.GetNumQubits dws shots j : Int)) := by
  constructor
  · intro eig cnts h
    simp only [countsSim] at h
    rw [if_neg (by simp)] at h
    simp only [Except.ok.injEq, Prod.mk.injEq] at h
    obtain ⟨he, hc⟩ := h
    refine ⟨he.symm, ?_⟩
    intro j hj
    rw [← hc,
      countsLoop_histogram samples sim.GetNumQubits (List.range sim.GetNumQubits)
        shots _ (by simp) j (by simpa using hj)]
    simp
  · intro eig cnts dws h hdvw
    simp only [partialCountsSim] at h
    repeat' split at h
    all_goals try (exfalso; simp at h; done)
    rename_i dev_wires heq
    unfold getDeviceWires at heq
    split at heq
    case _ ds hdvw2 =>
      simp only [Except.ok.injEq] at heq
      subst heq
      rw [hdvw2] at hdvw
      simp only [Option.some.injEq] at hdvw
      subst hdvw
      simp only [Except.ok.injEq, Prod.mk.injEq] at h
      obtain ⟨he, hc⟩ := h
      have hdlen : ds.length = wires.length :=
        deviceWiresList_length sim.qubit_manager wires ds hdvw2
      refine ⟨he.symm, ?_⟩
      intro j hj
      rw [← hc,
        countsLoop_histogram samples sim.GetNumQubits ds shots _
          (by simp [hdlen]) j (by rw [hdlen]; exact hj)]
      simp
    case _ => exact absurd heq (by simp)

/-- Witness for C2 (amended) at a concrete input: two qubits, one shot whose
bits are (wire0, wire1) = (1, 0); the full histogram holds that shot in bin 1
(little-endian), and the matching-shot count agrees. -/
theorem c2_amended_counts_binning_witness :
    ([0, 1, 0, 0] : List Int).getD 1 0
      = (shotsMatching [true, false] 2 (List.range 2) 1 1 : Int) := by
  have h := (c2_amended_counts_binning sim2q [true, false] [] 1).1
    [0, 1, 2, 3] [0, 1, 0, 0] (by rfl)
  exact h.2 1 (by decide)

/-- C2 counterexample: two qubits, one shot whose bits are
(wire0, wire1) = (1, 0).  The source bins the shot at index 1 = binary 01
(first wire = least significant bit); the claim's big-endian reading puts the
most significant bit first, giving index 2 = binary 10 — and bin 2 of the
actual histogram holds 0 shots, refuting the claimed big-endian bit order.
The eigenvalue buffer does hold 0, 1, 2, 3 in order. -/
theorem c2_counterexample :
    countsSim [true, false] sim2q 4 4 1 = .ok ([0, 1, 2, 3], [0, 1, 0, 0])
    ∧ specBigEndianIndex [true, false] = 2
    ∧ ([0, 1, 0, 0] : List Int).getD 2 0 = 0
    ∧ ([0, 1, 0, 0] : List Int).getD 1 0 = 1 := by
  exact ⟨by rfl, by decide, by decide, by decide⟩

end LightningKokkos
